import Mathlib

/-!
Verification development for the inventory reconciliation and transaction
pipeline of the elzar-recipe-generator repository.

The definitions below are shallow embeddings of the JavaScript source:

* `initStagedItems`, `handleItemChange`, `toggleItemSelection`,
  `handleToggleCreateIfMissing`, `transactionItems` and the result
  transforms embed the current `RecipeIngredientReview` component
  (src/unnamed/part_002).  An older revision of the same component is
  checked into src/frontend/src/components/RecipeIngredientReview.jsx;
  where a claim's behaviour differs between the two revisions, the
  definition notes which revision it embeds.
* `handleCreateProduct` and the `legacyStep` session machine embed the
  older revision (src/frontend/src/components/RecipeIngredientReview.jsx),
  which is the only revision with a pre-commit "Create Product" button
  and a `loadGrocyData` effect.
* The FastAPI backend (routers/inventory.py, services/grocy_client.py)
  is not part of the sources; the executor (`execItem`, `runCommitAux`)
  and the response serialization (`rawOfOutcomes`) are modelled from the
  specification, as their doc comments state.

JavaScript numbers are modelled as `ℚ`; a field that can hold either a
number or a DOM string (the `quantity` field after an edit) is modelled
by the sum type `QVal`.  JavaScript `null`/`undefined` object fields are
modelled as `Option`; the truthiness test `!item.grocy_product_id` is
modelled as `Option.isNone` (product ids in Grocy are positive, so the
falsy id 0 does not arise).
-/

namespace Elzar

/-- Confidence tier of a parsed line item, `"high" | "medium" | "low" | "new"`. -/
inductive Confidence
  | high
  | medium
  | low
  | new
deriving DecidableEq, Repr

/-- A JavaScript value that is either a number or a string.  The
`quantity` field of a parsed item arrives as a number from the parse
endpoint and becomes a string once the user edits it through the DOM
number input (`e.target.value` is a string). -/
inductive QVal
  | num (q : ℚ)
  | str (s : String)
deriving DecidableEq, Repr

/-- A parsed line item as delivered by the parse endpoint and consumed by
`RecipeIngredientReview` (fields read by src/unnamed/part_002).  The
spec's `matched_product_ref` is the pair `grocy_product_id` /
`grocy_product_name`. -/
structure ParsedLineItem where
  original_text : String := ""
  item_name : String
  quantity : QVal
  unit : String
  grocy_product_id : Option Nat := none
  grocy_product_name : Option String := none
  location_id : Option Nat := none
  quantity_unit_id : Option Nat := none
  confidence : Confidence
deriving DecidableEq, Repr

/-- Review-modal action type, the `actionType` prop:
`'consume' | 'shopping' | 'save'`. -/
inductive ReviewAction
  | consume
  | shopping
  | save
deriving DecidableEq, Repr

/-- A staged transaction item: a parsed item plus the `selected` and
`create_if_missing` flags added by the review component. -/
structure StagedItem where
  item : ParsedLineItem
  selected : Bool
  create_if_missing : Bool
deriving DecidableEq, Repr

/-- Staging step of src/unnamed/part_002 (the `useEffect` over
`parsedItems`, lines 22-34): every item is wrapped with
`selected: true`; `create_if_missing` defaults to
`!item.grocy_product_id` for the shopping and save actions and to
`item.confidence === 'new'` for consume. -/
def initStagedItems (act : ReviewAction) (ps : List ParsedLineItem) : List StagedItem :=
  ps.map fun p =>
    { item := p
      selected := true
      create_if_missing :=
        match act with
        | .shopping => p.grocy_product_id.isNone
        | .save => p.grocy_product_id.isNone
        | .consume => p.confidence = Confidence.new }

/-- Staging step of the older revision
(src/frontend/src/components/RecipeIngredientReview.jsx, lines 24-32):
`selected: item.confidence !== 'new'`,
`create_if_missing: item.confidence === 'new'`. -/
def initStagedItemsLegacy (ps : List ParsedLineItem) : List StagedItem :=
  ps.map fun p =>
    { item := p
      selected := p.confidence ≠ Confidence.new
      create_if_missing := p.confidence = Confidence.new }

/-- Index-aware map, the embedding of
`list.map((item, i) => i === index ? f(item) : item)`. -/
def mapWithIndex (f : Nat → α → α) : Nat → List α → List α
  | _, [] => []
  | n, a :: as => f n a :: mapWithIndex f (n + 1) as

/-- The fields editable through `handleItemChange` in
src/unnamed/part_002 (the three text/number inputs of the review table). -/
inductive EditField
  | itemName
  | quantity
  | unit
deriving DecidableEq, Repr

/-- Effect of `{ ...item, [field]: value }` for one editable field.  The
DOM always delivers the new value as a string; an edited quantity is
therefore stored as `QVal.str`. -/
def setField : EditField → String → StagedItem → StagedItem
  | .itemName, v, it => { it with item := { it.item with item_name := v } }
  | .quantity, v, it => { it with item := { it.item with quantity := QVal.str v } }
  | .unit, v, it => { it with item := { it.item with unit := v } }

/-- `handleItemChange` of src/unnamed/part_002 (lines 36-40): replace
field `f` of item `idx` by `v`, leave every other item alone. -/
def handleItemChange (l : List StagedItem) (idx : Nat) (f : EditField) (v : String) :
    List StagedItem :=
  mapWithIndex (fun i it => if i = idx then setField f v it else it) 0 l

/-- `toggleItemSelection` of src/unnamed/part_002 (lines 128-132). -/
def toggleItemSelection (l : List StagedItem) (idx : Nat) : List StagedItem :=
  mapWithIndex (fun i it => if i = idx then { it with selected := !it.selected } else it) 0 l

/-- `handleToggleCreateIfMissing` of src/unnamed/part_002 (lines 42-46). -/
def handleToggleCreateIfMissing (l : List StagedItem) (idx : Nat) : List StagedItem :=
  mapWithIndex
    (fun i it => if i = idx then { it with create_if_missing := !it.create_if_missing } else it)
    0 l

/-- `handleCreateProduct` of the older revision
(src/frontend/src/components/RecipeIngredientReview.jsx, lines 49-78):
guard on missing name/location/unit, then on a successful
`createGrocyProduct` response store the new id and name, set confidence
to `'high'` and select the item.  The response is passed in as
`newId`/`newName`. -/
def handleCreateProduct (l : List StagedItem) (idx : Nat) (newId : Nat) (newName : String) :
    List StagedItem :=
  match l.get? idx with
  | none => l
  | some it =>
    if it.item.item_name = "" ∨ it.item.location_id = none ∨ it.item.quantity_unit_id = none then
      l
    else
      l.set idx
        { it with
          item :=
            { it.item with
              grocy_product_id := some newId
              grocy_product_name := some newName
              confidence := Confidence.high }
          selected := true }

/-- Numeric value of a digit list read left to right. -/
def digitsVal (l : List Char) : Nat :=
  l.foldl (fun n c => 10 * n + (c.toNat - '0'.toNat)) 0

/-- Model of JavaScript `parseFloat` on the strings a number input can
produce: optional sign, integer digits, optional fractional digits;
trailing characters are ignored; a string with no leading digits parses
to `NaN`, modelled as `none`. -/
def parseDecimal (s : String) : Option ℚ :=
  let cs := s.toList
  let signed : Bool × List Char :=
    match cs with
    | '-' :: r => (true, r)
    | '+' :: r => (false, r)
    | _ => (false, cs)
  let intPart := signed.2.takeWhile Char.isDigit
  let rest := signed.2.dropWhile Char.isDigit
  let fracPart :=
    match rest with
    | '.' :: r => r.takeWhile Char.isDigit
    | _ => []
  if intPart = [] ∧ fracPart = [] then none
  else
    let q : ℚ := (digitsVal intPart : ℚ) + (digitsVal fracPart : ℚ) / ((10 : ℚ) ^ fracPart.length)
    some (if signed.1 then -q else q)

/-- The expression `parseFloat(item.quantity) || 1.0` of
src/unnamed/part_002 line 64: `NaN` and `0` are falsy and fall back to
`1.0`. -/
def jsAmount : QVal → ℚ
  | .num q => if q = 0 then 1 else q
  | .str s =>
    match parseDecimal s with
    | some q => if q = 0 then 1 else q
    | none => 1

/-- Per-item action string sent to the backend, `'consume' | 'purchase'`. -/
inductive TxAct
  | consume
  | purchase
deriving DecidableEq, Repr

/-- One element of the `transactionItems` array built by
`handleExecuteAction` in src/unnamed/part_002 (lines 61-71). -/
structure TxItem where
  product_id : Option Nat
  product_name : String
  amount : ℚ
  unit : String
  location_id : Option Nat
  quantity_unit_id : Option Nat
  action : TxAct
  create_if_missing : Bool
deriving DecidableEq, Repr

/-- Translation of one selected staged item into a transaction item,
following src/unnamed/part_002 lines 61-71: `amount` is
`parseFloat(item.quantity) || 1.0`, `unit` is `item.unit || 'unit'`,
and `create_if_missing` is
`item.create_if_missing && !item.grocy_product_id`. -/
def toTxItem (act : ReviewAction) (it : StagedItem) : TxItem :=
  { product_id := it.item.grocy_product_id
    product_name := it.item.item_name
    amount := jsAmount it.item.quantity
    unit := if it.item.unit = "" then "unit" else it.item.unit
    location_id := it.item.location_id
    quantity_unit_id := it.item.quantity_unit_id
    action := if act = ReviewAction.consume then TxAct.consume else TxAct.purchase
    create_if_missing := it.create_if_missing && it.item.grocy_product_id.isNone }

/-- `items.filter(item => item.selected)` of src/unnamed/part_002
line 53. -/
def selectedItems (l : List StagedItem) : List StagedItem :=
  l.filter (·.selected)

/-- The `transactionItems` array of src/unnamed/part_002 lines 61-71:
the selected staged items, each translated by `toTxItem`. -/
def transactionItems (act : ReviewAction) (l : List StagedItem) : List TxItem :=
  (selectedItems l).map (toTxItem act)

/-- Per-item transaction outcome, spec §3: one of success,
insufficient_stock, already_in_stock, created_product, skipped. -/
inductive Outcome
  | success (productId : Nat) (amount : ℚ)
  | insufficientStock (needed available : ℚ)
  | alreadyInStock (available : ℚ)
  | createdProduct (newId : Nat)
  | skipped (reason : String)
deriving DecidableEq, Repr

def Outcome.isSuccess : Outcome → Bool
  | .success _ _ => true
  | _ => false

def Outcome.isInsufficientStock : Outcome → Bool
  | .insufficientStock _ _ => true
  | _ => false

def Outcome.isAlreadyInStock : Outcome → Bool
  | .alreadyInStock _ => true
  | _ => false

def Outcome.isCreatedProduct : Outcome → Bool
  | .createdProduct _ => true
  | _ => false

def Outcome.isSkipped : Outcome → Bool
  | .skipped _ => true
  | _ => false

/-- An external mutation call against the inventory backend
(spec §6: create product, add stock, remove stock, add shopping-list
entry, attach recipe ingredient). -/
inductive MutCall
  | createProduct (newId : Nat) (name : String)
  | addStock (pid : Nat) (amount : ℚ)
  | removeStock (pid : Nat) (amount : ℚ)
  | addShoppingListEntry (pid : Nat) (amount : ℚ)
  | attachRecipeIngredient (pid : Nat) (amount : ℚ)
deriving DecidableEq, Repr

/-- Target action of a commit, spec §4.5:
purchase | consume | add_to_shopping_list | save_as_recipe. -/
inductive ExecAction
  | purchase
  | consume
  | addToShoppingList
  | saveAsRecipe
deriving DecidableEq, Repr

/-- The review actions map onto executor actions through the endpoint
each one calls in src/unnamed/part_002 lines 74-102 (`consumeItems`,
`addItemsToShoppingList`, `saveRecipeToGrocyReviewed`). -/
def ReviewAction.toExec : ReviewAction → ExecAction
  | .consume => ExecAction.consume
  | .shopping => ExecAction.addToShoppingList
  | .save => ExecAction.saveAsRecipe

/-- Modelled from the spec: state of the external inventory backend as
observed by the Transaction Executor (the backend itself,
backend/app/services/grocy_client.py, is not part of the sources).
`stock` is the current stock amount per product id, `nextId` the id the
backend will assign to the next created product, and `log` the sequence
of mutation calls issued so far. -/
structure ExecState where
  stock : Nat → ℚ
  nextId : Nat
  log : List MutCall

/-- Modelled from the spec §4.5/§7: which per-item mutation calls throw
(`MutationError`).  The executor itself is deterministic; the failure
behaviour of the external backend is an oracle indexed by item
position. -/
structure ExecEnv where
  mutFails : Nat → Bool

/-- Reason string of the skipped outcome for an unmatched item,
spec §4.4. -/
def noMatchReason : String := "no product match"

/-- Reason string of the skipped outcome for a failed mutation call,
spec §4.5 step 5. -/
def mutationFailedReason : String := "mutation call failed"

/-- Modelled from the spec §4.5 steps 3-5: execute one item whose
product id `pid` is resolved.  For consume, re-read stock immediately
before mutating and stop with `insufficient_stock` when
`available < requested`; for add_to_shopping_list, stop with
`already_in_stock` when stock covers the request; otherwise issue
exactly one mutation call, converting an exception into `skipped`. -/
def execResolved (act : ExecAction) (env : ExecEnv) (idx : Nat) (st : ExecState)
    (pid : Nat) (it : TxItem) : ExecState × List Outcome :=
  match act with
  | .consume =>
    let available := st.stock pid
    if available < it.amount then
      (st, [Outcome.insufficientStock it.amount available])
    else if env.mutFails idx then
      (st, [Outcome.skipped mutationFailedReason])
    else
      ({ st with
          stock := fun p => if p = pid then st.stock p - it.amount else st.stock p
          log := st.log ++ [MutCall.removeStock pid it.amount] },
        [Outcome.success pid it.amount])
  | .addToShoppingList =>
    let available := st.stock pid
    if it.amount ≤ available then
      (st, [Outcome.alreadyInStock available])
    else if env.mutFails idx then
      (st, [Outcome.skipped mutationFailedReason])
    else
      ({ st with log := st.log ++ [MutCall.addShoppingListEntry pid it.amount] },
        [Outcome.success pid it.amount])
  | .purchase =>
    if env.mutFails idx then
      (st, [Outcome.skipped mutationFailedReason])
    else
      ({ st with
          stock := fun p => if p = pid then st.stock p + it.amount else st.stock p
          log := st.log ++ [MutCall.addStock pid it.amount] },
        [Outcome.success pid it.amount])
  | .saveAsRecipe =>
    if env.mutFails idx then
      (st, [Outcome.skipped mutationFailedReason])
    else
      ({ st with log := st.log ++ [MutCall.attachRecipeIngredient pid it.amount] },
        [Outcome.success pid it.amount])

/-- Modelled from the spec §4.5 step 1: create the missing product in
the catalog (one creation call, consuming the next product id). -/
def createFirst (st : ExecState) (it : TxItem) : ExecState :=
  { st with
    nextId := st.nextId + 1
    log := st.log ++ [MutCall.createProduct st.nextId it.product_name] }

/-- Modelled from the spec §4.5 steps 1-2: an unmatched item with
`create_if_missing` gets a product created first (the `created_product`
outcome is recorded and the new id is used downstream, §8 end-to-end
example); an unmatched item without it is skipped with
"no product match" and no mutation is issued. -/
def execItem (act : ExecAction) (env : ExecEnv) (idx : Nat) (st : ExecState)
    (it : TxItem) : ExecState × List Outcome :=
  match it.product_id with
  | some pid => execResolved act env idx st pid it
  | none =>
    if it.create_if_missing then
      let r := execResolved act env idx (createFirst st it) st.nextId it
      (r.1, Outcome.createdProduct st.nextId :: r.2)
    else
      (st, [Outcome.skipped noMatchReason])

/-- Modelled from the spec §4.5: process the items strictly
sequentially, in submission order, collecting each item's outcomes. -/
def runCommitAux (act : ExecAction) (env : ExecEnv) :
    Nat → ExecState → List TxItem → ExecState × List (List Outcome)
  | _, st, [] => (st, [])
  | i, st, it :: rest =>
    let r1 := execItem act env i st it
    let r2 := runCommitAux act env (i + 1) r1.1 rest
    (r2.1, r1.2 :: r2.2)

/-- The state reached after processing a prefix of the batch. -/
def runState (act : ExecAction) (env : ExecEnv) :
    Nat → ExecState → List TxItem → ExecState
  | _, st, [] => st
  | i, st, it :: rest => runState act env (i + 1) (execItem act env i st it).1 rest

/-- Modelled from the spec: a whole commit, starting at item index 0. -/
def runCommit (act : ExecAction) (env : ExecEnv) (st : ExecState) (txs : List TxItem) :
    ExecState × List (List Outcome) :=
  runCommitAux act env 0 st txs

/-- Commit as launched by `handleExecuteAction` in
src/unnamed/part_002: the selected staged items are translated to
transaction items and handed to the (spec-modelled) executor. -/
def commitReview (ract : ReviewAction) (env : ExecEnv) (st : ExecState)
    (staged : List StagedItem) : ExecState × List (List Outcome) :=
  runCommit ract.toExec env st (transactionItems ract staged)

/-- Modelled from the spec: shape of the backend batch response as the
frontend destructures it (src/unnamed/part_002 lines 75-101 reads
`rawResult.success`, `rawResult.failed` and `rawResult.created_products`).
Successful outcomes land in `success`, created products in
`created_products`, everything else in `failed`. -/
structure RawResult where
  success : List Outcome := []
  failed : List Outcome := []
  created_products : List Outcome := []
deriving DecidableEq, Repr

/-- Modelled from the spec: serialization of the executor outcomes into
the response shape the frontend reads. -/
def rawOfOutcomes (outs : List Outcome) : RawResult :=
  { success := outs.filter Outcome.isSuccess
    failed := outs.filter fun o => !o.isSuccess && !o.isCreatedProduct
    created_products := outs.filter Outcome.isCreatedProduct }

/-- The consume result shown by the review component,
src/unnamed/part_002 lines 77-81. -/
structure ConsumeDisplay where
  consumed : List Outcome
  skipped : List Outcome
  insufficient_stock : List Outcome
deriving DecidableEq, Repr

/-- Transform of the raw consume response into the
`GrocyActionModal` format, src/unnamed/part_002 lines 77-81:
`consumed := success`, `skipped := failed`,
`insufficient_stock := []`. -/
def transformConsumeResult (raw : RawResult) : ConsumeDisplay :=
  { consumed := raw.success
    skipped := raw.failed
    insufficient_stock := [] }

/-- The shopping-list result shown by the review component,
src/unnamed/part_002 lines 85-90. -/
structure ShoppingDisplay where
  added : List Outcome
  already_in_stock : List Outcome
  skipped : List Outcome
  created_products : List Outcome
deriving DecidableEq, Repr

/-- Transform of the raw shopping-list response into the
`GrocyActionModal` format, src/unnamed/part_002 lines 85-90:
`added := success`, `already_in_stock := []`, `skipped := failed`,
`created_products := created_products`. -/
def transformShoppingResult (raw : RawResult) : ShoppingDisplay :=
  { added := raw.success
    already_in_stock := []
    skipped := raw.failed
    created_products := raw.created_products }

/-- The consume result the user is shown for a commit: executor run,
serialized, then transformed by src/unnamed/part_002. -/
def reportedConsumeResult (env : ExecEnv) (st : ExecState)
    (staged : List StagedItem) : ConsumeDisplay :=
  transformConsumeResult (rawOfOutcomes (commitReview ReviewAction.consume env st staged).2.flatten)

/-- The shopping-list result the user is shown for a commit. -/
def reportedShoppingResult (env : ExecEnv) (st : ExecState)
    (staged : List StagedItem) : ShoppingDisplay :=
  transformShoppingResult (rawOfOutcomes (commitReview ReviewAction.shopping env st staged).2.flatten)

/-- Modelled from the spec §4.2: defensive normalization of the model's
raw confidence against the match invariant
(confidence = new ⇔ matched_product_ref absent).  The parse-side
matching engine (backend/app/services/inventory_matcher.py) is not part
of the sources; the spec fixes that the invariant is enforced but not
which tier a matched-but-"new" item is repaired to, so `low` is used
here. -/
def normalizeParsedItem (p : ParsedLineItem) : ParsedLineItem :=
  if p.grocy_product_id = none then { p with confidence := Confidence.new }
  else if p.confidence = Confidence.new then { p with confidence := Confidence.low }
  else p

/-- The confidence/match invariant of spec §3 in the direction required
of all parse outputs (§8): confidence = "new" implies
matched_product_id = null (decidable form; `invConf_iff` states the
logical reading). -/
def invConf (p : ParsedLineItem) : Bool :=
  p.confidence != Confidence.new || p.grocy_product_id == none

/-- The invariant lifted to a staged item. -/
def invConfS (it : StagedItem) : Bool :=
  invConf it.item

/-- An external call made by the review component.  `getConfigCall` is
the only read-only one; the others mutate the external system (the
batch endpoints issue stock/shopping/recipe mutations). -/
inductive ExtCall
  | getConfigCall
  | createProductCall (name : String) (locationId unitId : Nat)
  | consumeApiCall (txs : List TxItem)
  | purchaseApiCall (txs : List TxItem)
  | parseApiCall (text : String)
deriving DecidableEq, Repr

/-- Whether a call mutates the external system.  `getConfig` and
`parse` only read; the batch endpoints and product creation mutate. -/
def ExtCall.isMutation : ExtCall → Bool
  | .getConfigCall => false
  | .parseApiCall _ => false
  | _ => true

/-- Session state of the older review component
(src/frontend/src/components/RecipeIngredientReview.jsx): its `items`
state, its `actionType` prop and whether `handleExecuteAction` has run
(after which `results` is set and the commit button disappears). -/
structure LegacySession where
  items : List StagedItem := []
  act : ReviewAction := ReviewAction.consume
  committed : Bool := false
deriving DecidableEq, Repr

/-- User-visible events of the older review component. -/
inductive LegacyEvent
  | openModal (parsed : List ParsedLineItem) (act : ReviewAction)
  | createProductClick (i : Nat) (newId : Nat) (newName : String)
  | toggleSelection (i : Nat)
  | executeAction
  | cancel
deriving DecidableEq, Repr

/-- One step of the older review component
(src/frontend/src/components/RecipeIngredientReview.jsx), with the
external calls it issues.  Opening the modal runs the staging
`useEffect` and `loadGrocyData` (lines 34-47), which calls the
read-only `getConfig`; the Create Product button (lines 49-78) calls
`createGrocyProduct` unless name, location or unit is missing;
`handleExecuteAction` (lines 80-125) filters
`item.selected && item.grocy_product_id` and issues one batch call
unless the filter is empty; Cancel (lines 243-249) only calls
`onClose`. -/
def legacyStep (s : LegacySession) (e : LegacyEvent) : LegacySession × List ExtCall :=
  match e with
  | .openModal parsed act =>
    ({ items := initStagedItemsLegacy parsed, act := act, committed := false },
      [ExtCall.getConfigCall])
  | .createProductClick i newId newName =>
    match s.items.get? i with
    | none => (s, [])
    | some it =>
      if it.item.item_name = "" ∨ it.item.location_id = none ∨ it.item.quantity_unit_id = none then
        (s, [])
      else
        ({ s with items := handleCreateProduct s.items i newId newName },
          [ExtCall.createProductCall it.item.item_name (it.item.location_id.getD 0)
            (it.item.quantity_unit_id.getD 0)])
  | .toggleSelection i =>
    ({ s with items := toggleItemSelection s.items i }, [])
  | .executeAction =>
    let sel := s.items.filter fun it => it.selected && it.item.grocy_product_id.isSome
    if sel.isEmpty then (s, [])
    else
      let txs := sel.map (toTxItem s.act)
      ({ s with committed := true },
        [if s.act = ReviewAction.consume then ExtCall.consumeApiCall txs
          else ExtCall.purchaseApiCall txs])
  | .cancel => (s, [])

/-- A whole session of the older review component: fold the steps,
concatenating the external calls. -/
def legacyRun (s : LegacySession) : List LegacyEvent → LegacySession × List ExtCall
  | [] => (s, [])
  | e :: es =>
    let r1 := legacyStep s e
    let r2 := legacyRun r1.1 es
    (r2.1, r1.2 ++ r2.2)

/-- In-review editing events of the current component
(src/unnamed/part_002): field edits, selection toggles and
create-if-missing toggles.  None of them calls the backend; in
particular no parse (matching engine) call is issued. -/
inductive ReviewEvent
  | editField (i : Nat) (f : EditField) (v : String)
  | toggleSelection (i : Nat)
  | toggleCreateIfMissing (i : Nat)
deriving DecidableEq, Repr

/-- One pre-commit editing step of src/unnamed/part_002, with the
external calls it issues. -/
def reviewStep (items : List StagedItem) : ReviewEvent → List StagedItem × List ExtCall
  | .editField i f v => (handleItemChange items i f v, [])
  | .toggleSelection i => (toggleItemSelection items i, [])
  | .toggleCreateIfMissing i => (handleToggleCreateIfMissing items i, [])

/-- Number of outcomes of kind `p` in a list (the Result Aggregator's
bucket count, spec §4.6). -/
def countKind (p : Outcome → Bool) (outs : List Outcome) : Nat :=
  (outs.filter p).length

/-- A final (per-item) outcome: anything but `created_product`. -/
def Outcome.isFinal (o : Outcome) : Bool :=
  !o.isCreatedProduct

/-- The invariant holds of every item of a parsed list. -/
def invAllP (ps : List ParsedLineItem) : Bool :=
  ps.all invConf

/-- The invariant holds of every item of a staged list. -/
def invAllS (l : List StagedItem) : Bool :=
  l.all invConfS

/-- Whether a legacy review event is the commit action. -/
def LegacyEvent.isExecute : LegacyEvent → Bool
  | .executeAction => true
  | _ => false

/-- Whether a legacy review event is the Create Product button. -/
def LegacyEvent.isCreateClick : LegacyEvent → Bool
  | .createProductClick _ _ _ => true
  | _ => false

theorem mapWithIndex_length (f : Nat → α → α) :
    ∀ n (l : List α), (mapWithIndex f n l).length = l.length := by
  intro n l
  induction l generalizing n with
  | nil => rfl
  | cons a as ih => simp [mapWithIndex, ih]

theorem mapWithIndex_get? (f : Nat → α → α) :
    ∀ n (l : List α) (j : Nat),
      (mapWithIndex f n l).get? j = (l.get? j).map (f (n + j)) := by
  intro n l
  induction l generalizing n with
  | nil => intro j; simp [mapWithIndex]
  | cons a as ih =>
    intro j
    cases j with
    | zero => simp [mapWithIndex]
    | succ j =>
      have harith : n + 1 + j = n + (j + 1) := by omega
      simp only [mapWithIndex, List.get?, ih (n + 1) j, harith]

theorem mapWithIndex_get (f : Nat → α → α) (n : Nat) (l : List α) (j : Nat)
    (h : j < l.length) (h2 : j < (mapWithIndex f n l).length) :
    (mapWithIndex f n l).get ⟨j, h2⟩ = f (n + j) (l.get ⟨j, h⟩) := by
  have hq := mapWithIndex_get? f n l j
  rw [List.get?_eq_get h, List.get?_eq_get h2] at hq
  simpa using hq

theorem mapWithIndex_comp (f g : Nat → α → α) :
    ∀ n (l : List α),
      mapWithIndex f n (mapWithIndex g n l) = mapWithIndex (fun i a => f i (g i a)) n l := by
  intro n l
  induction l generalizing n with
  | nil => rfl
  | cons a as ih => simp [mapWithIndex, ih]

theorem mapWithIndex_congr (f g : Nat → α → α) :
    ∀ n (l : List α), (∀ i a, f i a = g i a) →
      mapWithIndex f n l = mapWithIndex g n l := by
  intro n l h
  induction l generalizing n with
  | nil => rfl
  | cons a as ih => simp [mapWithIndex, h, ih]

theorem mapWithIndex_id : ∀ n (l : List α), mapWithIndex (fun _ a => a) n l = l := by
  intro n l
  induction l generalizing n with
  | nil => rfl
  | cons a as ih => simp [mapWithIndex, ih]

theorem countKind_nil (p : Outcome → Bool) : countKind p [] = 0 := rfl

theorem countKind_append (p : Outcome → Bool) (xs ys : List Outcome) :
    countKind p (xs ++ ys) = countKind p xs + countKind p ys := by
  simp [countKind, List.filter_append]

theorem countKind_five_sum (outs : List Outcome) :
    countKind Outcome.isSuccess outs + countKind Outcome.isInsufficientStock outs +
      countKind Outcome.isAlreadyInStock outs + countKind Outcome.isSkipped outs +
      countKind Outcome.isCreatedProduct outs = outs.length := by
  induction outs with
  | nil => rfl
  | cons o os ih =>
    cases o <;>
      simp [countKind, List.filter, Outcome.isSuccess, Outcome.isInsufficientStock,
        Outcome.isAlreadyInStock, Outcome.isSkipped, Outcome.isCreatedProduct] <;>
      simp [countKind] at ih <;> omega

theorem execResolved_snd_shape (act : ExecAction) (env : ExecEnv) (idx : Nat)
    (st : ExecState) (pid : Nat) (it : TxItem) :
    ∃ o, (execResolved act env idx st pid it).2 = [o] ∧ o.isCreatedProduct = false := by
  cases act <;> unfold execResolved <;> dsimp only <;>
    repeat' split
  all_goals exact ⟨_, rfl, rfl⟩

theorem execItem_snd_shape (act : ExecAction) (env : ExecEnv) (idx : Nat)
    (st : ExecState) (it : TxItem) :
    (∃ o, (execItem act env idx st it).2 = [o] ∧ o.isCreatedProduct = false) ∨
      (∃ nid o, (execItem act env idx st it).2 = [Outcome.createdProduct nid, o] ∧
        o.isCreatedProduct = false) := by
  unfold execItem
  cases hpid : it.product_id with
  | some pid =>
    exact Or.inl (execResolved_snd_shape act env idx st pid it)
  | none =>
    dsimp only
    split
    · right
      obtain ⟨o, ho, hno⟩ :=
        execResolved_snd_shape act env idx (createFirst st it) st.nextId it
      exact ⟨st.nextId, o, by rw [ho], hno⟩
    · exact Or.inl ⟨Outcome.skipped noMatchReason, rfl, rfl⟩

theorem execItem_counts (act : ExecAction) (env : ExecEnv) (idx : Nat)
    (st : ExecState) (it : TxItem) :
    countKind Outcome.isFinal (execItem act env idx st it).2 = 1 ∧
      countKind Outcome.isCreatedProduct (execItem act env idx st it).2 ≤ 1 ∧
      (execItem act env idx st it).2.length =
        1 + countKind Outcome.isCreatedProduct (execItem act env idx st it).2 := by
  rcases execItem_snd_shape act env idx st it with ⟨o, ho, hno⟩ | ⟨nid, o, ho, hno⟩ <;>
    rw [ho] <;>
    cases o <;> simp_all [countKind, List.filter_cons, Outcome.isFinal, Outcome.isCreatedProduct]

theorem runCommitAux_length (act : ExecAction) (env : ExecEnv) :
    ∀ (txs : List TxItem) (i : Nat) (st : ExecState),
      (runCommitAux act env i st txs).2.length = txs.length := by
  intro txs
  induction txs with
  | nil => intro i st; rfl
  | cons it rest ih => intro i st; simp [runCommitAux, ih]

theorem runCommitAux_snd_get (act : ExecAction) (env : ExecEnv) :
    ∀ (txs : List TxItem) (i0 : Nat) (st : ExecState) (j : Nat) (h : j < txs.length)
      (h2 : j < (runCommitAux act env i0 st txs).2.length),
      (runCommitAux act env i0 st txs).2.get ⟨j, h2⟩ =
        (execItem act env (i0 + j) (runState act env i0 st (txs.take j)) (txs.get ⟨j, h⟩)).2 := by
  intro txs
  induction txs with
  | nil => intro i0 st j h; exact absurd h (by simp)
  | cons it rest ih =>
    intro i0 st j h h2
    cases j with
    | zero => simp [runCommitAux, runState]
    | succ j =>
      have hr : j < rest.length := by simpa using h
      have hr2 : j < (runCommitAux act env (i0 + 1) (execItem act env i0 st it).1 rest).2.length := by
        rw [runCommitAux_length]; exact hr
      have harith : i0 + 1 + j = i0 + (j + 1) := by omega
      simpa [runCommitAux, runState, harith] using
        ih (i0 + 1) (execItem act env i0 st it).1 j hr hr2

theorem runCommitAux_flatten_length (act : ExecAction) (env : ExecEnv) :
    ∀ (txs : List TxItem) (i : Nat) (st : ExecState),
      (runCommitAux act env i st txs).2.flatten.length =
        txs.length +
          countKind Outcome.isCreatedProduct (runCommitAux act env i st txs).2.flatten := by
  intro txs
  induction txs with
  | nil => intro i st; rfl
  | cons it rest ih =>
    intro i st
    have hc := execItem_counts act env i st it
    simp only [runCommitAux, List.flatten_cons, List.length_append, countKind_append,
      List.length_cons]
    rw [ih (i + 1) (execItem act env i st it).1]
    omega

theorem setField_spec (f : EditField) (v : String) (it : StagedItem) :
    (setField f v it).selected = it.selected ∧
      (setField f v it).create_if_missing = it.create_if_missing ∧
      (setField f v it).item.grocy_product_id = it.item.grocy_product_id ∧
      (setField f v it).item.grocy_product_name = it.item.grocy_product_name ∧
      (setField f v it).item.confidence = it.item.confidence ∧
      (setField f v it).item.original_text = it.item.original_text ∧
      (setField f v it).item.location_id = it.item.location_id ∧
      (setField f v it).item.quantity_unit_id = it.item.quantity_unit_id ∧
      (f ≠ EditField.itemName → (setField f v it).item.item_name = it.item.item_name) ∧
      (f ≠ EditField.quantity → (setField f v it).item.quantity = it.item.quantity) ∧
      (f ≠ EditField.unit → (setField f v it).item.unit = it.item.unit) ∧
      (f = EditField.itemName → (setField f v it).item.item_name = v) ∧
      (f = EditField.quantity → (setField f v it).item.quantity = QVal.str v) ∧
      (f = EditField.unit → (setField f v it).item.unit = v) := by
  cases f <;> simp [setField]

/-- C3: the staging step of src/unnamed/part_002 does not default
`create_if_missing` to `confidence = 'new'` for every action: for the
shopping action, an unmatched item whose confidence is `'low'` (not
`'new'`) still gets `create_if_missing = true`, because the code uses
`!item.grocy_product_id` there. -/
theorem c3_counterexample :
    (initStagedItems ReviewAction.shopping
        [{ item_name := "saffron", quantity := QVal.num 1, unit := "g",
           confidence := Confidence.low }]).map (fun it => it.create_if_missing) = [true] ∧
      Confidence.low ≠ Confidence.new :=
  ⟨rfl, by decide⟩

/-- C3 (amended): the staging step wraps each parsed item into a staged
item with default `selected = true`; `create_if_missing` defaults to
`confidence = 'new'` when the review action is consume, and to the
absence of a matched `grocy_product_id` when the review action is
shopping or save. -/
theorem c3_staging_defaults (act : ReviewAction) (ps : List ParsedLineItem) (j : Nat)
    (h : j < ps.length) :
    (initStagedItems act ps).length = ps.length ∧
      (initStagedItems act ps).get? j =
        some
          { item := ps.get ⟨j, h⟩
            selected := true
            create_if_missing :=
              match act with
              | ReviewAction.consume => decide ((ps.get ⟨j, h⟩).confidence = Confidence.new)
              | ReviewAction.shopping => (ps.get ⟨j, h⟩).grocy_product_id.isNone
              | ReviewAction.save => (ps.get ⟨j, h⟩).grocy_product_id.isNone } := by
  refine ⟨by simp [initStagedItems], ?_⟩
  cases act <;>
    simp [initStagedItems, List.get?_eq_getElem?, List.getElem?_map,
      List.getElem?_eq_getElem, h, List.get_eq_getElem]

theorem c3_staging_defaults_witness :
    (initStagedItems ReviewAction.consume
        [{ item_name := "milk", quantity := QVal.num 1, unit := "l",
           grocy_product_id := some 2, confidence := Confidence.high }]).length = 1 ∧
      (initStagedItems ReviewAction.consume
          [{ item_name := "milk", quantity := QVal.num 1, unit := "l",
             grocy_product_id := some 2, confidence := Confidence.high }]).get? 0 =
        some
          { item :=
              { item_name := "milk", quantity := QVal.num 1, unit := "l",
                grocy_product_id := some 2, confidence := Confidence.high }
            selected := true
            create_if_missing := false } := by
  simpa using
    c3_staging_defaults ReviewAction.consume
      [{ item_name := "milk", quantity := QVal.num 1, unit := "l",
         grocy_product_id := some 2, confidence := Confidence.high }] 0 (by decide)

/-- C9: `handleItemChange` is a pure per-index update: the list keeps
its length, item `i` becomes its old value with exactly the named field
replaced (all other fields of item `i` are unchanged, as `setField_spec`
states for the value below), every other index `j` is untouched, and
the edit step issues no external call, in particular no parse
(matching-engine) call. -/
theorem c9_handleItemChange_frame (l : List StagedItem) (i j : Nat) (f : EditField)
    (v : String) (h : i < l.length) (hj : j ≠ i) :
    (handleItemChange l i f v).length = l.length ∧
      (handleItemChange l i f v).get? i = some (setField f v (l.get ⟨i, h⟩)) ∧
      (handleItemChange l i f v).get? j = l.get? j ∧
      (setField f v (l.get ⟨i, h⟩)).selected = (l.get ⟨i, h⟩).selected ∧
      (setField f v (l.get ⟨i, h⟩)).create_if_missing = (l.get ⟨i, h⟩).create_if_missing ∧
      (setField f v (l.get ⟨i, h⟩)).item.grocy_product_id =
        (l.get ⟨i, h⟩).item.grocy_product_id ∧
      (setField f v (l.get ⟨i, h⟩)).item.confidence = (l.get ⟨i, h⟩).item.confidence ∧
      (f ≠ EditField.itemName →
        (setField f v (l.get ⟨i, h⟩)).item.item_name = (l.get ⟨i, h⟩).item.item_name) ∧
      (f ≠ EditField.quantity →
        (setField f v (l.get ⟨i, h⟩)).item.quantity = (l.get ⟨i, h⟩).item.quantity) ∧
      (f ≠ EditField.unit →
        (setField f v (l.get ⟨i, h⟩)).item.unit = (l.get ⟨i, h⟩).item.unit) ∧
      (f = EditField.itemName → (setField f v (l.get ⟨i, h⟩)).item.item_name = v) ∧
      (f = EditField.quantity → (setField f v (l.get ⟨i, h⟩)).item.quantity = QVal.str v) ∧
      (f = EditField.unit → (setField f v (l.get ⟨i, h⟩)).item.unit = v) ∧
      (reviewStep l (ReviewEvent.editField i f v)).2 = [] := by
  obtain ⟨h1, h2, h3, h4, h5, h6, h7, h8, h9, h10, h11, h12, h13, h14⟩ :=
    setField_spec f v (l.get ⟨i, h⟩)
  refine ⟨mapWithIndex_length _ 0 l, ?_, ?_, h1, h2, h3, h5, h9, h10, h11, h12, h13, h14, rfl⟩
  · rw [handleItemChange, mapWithIndex_get?, List.get?_eq_get h]
    simp
  · rw [handleItemChange, mapWithIndex_get?]
    cases l.get? j <;> simp [hj]

theorem c9_handleItemChange_frame_witness :
    (handleItemChange
          [{ item := { item_name := "milk", quantity := QVal.num 1, unit := "l",
                       confidence := Confidence.high }
             selected := true, create_if_missing := false },
           { item := { item_name := "egg", quantity := QVal.num 12, unit := "count",
                       confidence := Confidence.medium }
             selected := true, create_if_missing := false }]
          0 EditField.quantity "2.5").length = 2 ∧
      (handleItemChange
          [{ item := { item_name := "milk", quantity := QVal.num 1, unit := "l",
                       confidence := Confidence.high }
             selected := true, create_if_missing := false },
           { item := { item_name := "egg", quantity := QVal.num 12, unit := "count",
                       confidence := Confidence.medium }
             selected := true, create_if_missing := false }]
          0 EditField.quantity "2.5").get? 1 =
        some
          { item := { item_name := "egg", quantity := QVal.num 12, unit := "count",
                      confidence := Confidence.medium }
            selected := true, create_if_missing := false } := by
  have hmain :=
    c9_handleItemChange_frame
      [{ item := { item_name := "milk", quantity := QVal.num 1, unit := "l",
                   confidence := Confidence.high }
         selected := true, create_if_missing := false },
       { item := { item_name := "egg", quantity := QVal.num 12, unit := "count",
                   confidence := Confidence.medium }
         selected := true, create_if_missing := false }]
      0 1 EditField.quantity "2.5" (by decide) (by decide)
  exact ⟨hmain.1, by simpa using hmain.2.2.1⟩

/-- C10: toggling the selection of item `i` flips exactly that item's
`selected` flag, leaves every other index unchanged, and toggling twice
at the same index gives back the original list. -/
theorem c10_toggle_selection (l : List StagedItem) (i j : Nat) (h : i < l.length)
    (hj : j ≠ i) :
    toggleItemSelection (toggleItemSelection l i) i = l ∧
      (toggleItemSelection l i).length = l.length ∧
      (toggleItemSelection l i).get? i =
        some { l.get ⟨i, h⟩ with selected := !(l.get ⟨i, h⟩).selected } ∧
      (toggleItemSelection l i).get? j = l.get? j := by
  refine ⟨?_, mapWithIndex_length _ 0 l, ?_, ?_⟩
  · rw [toggleItemSelection, toggleItemSelection, mapWithIndex_comp]
    rw [mapWithIndex_congr _ (fun _ a => a)]
    · exact mapWithIndex_id 0 l
    · intro k it
      by_cases hk : k = i <;> simp [hk]
  · rw [toggleItemSelection, mapWithIndex_get?, List.get?_eq_get h]
    simp
  · rw [toggleItemSelection, mapWithIndex_get?]
    cases l.get? j <;> simp [hj]

theorem c10_toggle_selection_witness :
    toggleItemSelection
        (toggleItemSelection
          [{ item := { item_name := "milk", quantity := QVal.num 1, unit := "l",
                       confidence := Confidence.high }
             selected := true, create_if_missing := false },
           { item := { item_name := "egg", quantity := QVal.num 12, unit := "count",
                       confidence := Confidence.medium }
             selected := false, create_if_missing := false }]
          1)
        1 =
      [{ item := { item_name := "milk", quantity := QVal.num 1, unit := "l",
                   confidence := Confidence.high }
         selected := true, create_if_missing := false },
       { item := { item_name := "egg", quantity := QVal.num 12, unit := "count",
                   confidence := Confidence.medium }
         selected := false, create_if_missing := false }] ∧
      (toggleItemSelection
          [{ item := { item_name := "milk", quantity := QVal.num 1, unit := "l",
                       confidence := Confidence.high }
             selected := true, create_if_missing := false },
           { item := { item_name := "egg", quantity := QVal.num 12, unit := "count",
                       confidence := Confidence.medium }
             selected := false, create_if_missing := false }]
          1).get? 1 =
        some
          { item := { item_name := "egg", quantity := QVal.num 12, unit := "count",
                      confidence := Confidence.medium }
            selected := true, create_if_missing := false } := by
  have hmain :=
    c10_toggle_selection
      [{ item := { item_name := "milk", quantity := QVal.num 1, unit := "l",
                   confidence := Confidence.high }
         selected := true, create_if_missing := false },
       { item := { item_name := "egg", quantity := QVal.num 12, unit := "count",
                   confidence := Confidence.medium }
         selected := false, create_if_missing := false }]
      1 0 (by decide) (by decide)
  exact ⟨hmain.1, by simpa using hmain.2.2.1⟩

/-- C5 (amended): the spec-modelled executor step for consume re-reads
the current stock and, when `available < requested`, records
`insufficient_stock(requested, available)` and leaves the backend state
(stock and mutation log) untouched; however the review component's
reported consume result (src/unnamed/part_002 lines 77-81) maps every
non-success outcome into `skipped` and always reports
`insufficient_stock` as the empty list. -/
theorem c5_consume_insufficient (env : ExecEnv) (idx : Nat) (st : ExecState) (it : TxItem)
    (pid : Nat) (raw : RawResult) (hpid : it.product_id = some pid)
    (hlt : st.stock pid < it.amount) :
    execItem ExecAction.consume env idx st it =
        (st, [Outcome.insufficientStock it.amount (st.stock pid)]) ∧
      (transformConsumeResult raw).insufficient_stock = [] := by
  constructor
  · unfold execItem
    rw [hpid]
    unfold execResolved
    simp [hlt]
  · rfl

theorem c5_consume_insufficient_witness :
    execItem ExecAction.consume ⟨fun _ => false⟩ 0
        ⟨fun p => if p = 1 then (2 : ℚ) else 0, 10, []⟩
        { product_id := some 1, product_name := "milk", amount := 5, unit := "l",
          location_id := none, quantity_unit_id := none, action := TxAct.consume,
          create_if_missing := false } =
      (⟨fun p => if p = 1 then (2 : ℚ) else 0, 10, []⟩,
        [Outcome.insufficientStock 5 2]) ∧
      (transformConsumeResult {}).insufficient_stock = [] := by
  simpa using
    c5_consume_insufficient ⟨fun _ => false⟩ 0
      ⟨fun p => if p = 1 then (2 : ℚ) else 0, 10, []⟩
      { product_id := some 1, product_name := "milk", amount := 5, unit := "l",
        location_id := none, quantity_unit_id := none, action := TxAct.consume,
        create_if_missing := false }
      1 {} rfl (by norm_num)

/-- C5: the result reported to the user does not contain an
`insufficient_stock` outcome for an item whose requested quantity (5)
exceeds available stock (2): the executor produces
`insufficient_stock(5, 2)` and leaves the stock of product 1 at 2 with
an empty mutation log, but the reported result pins
`insufficient_stock` to the empty list and shows the item under
`skipped` instead. -/
theorem c5_counterexample :
    (commitReview ReviewAction.consume ⟨fun _ => false⟩
          ⟨fun p => if p = 1 then (2 : ℚ) else 0, 10, []⟩
          [{ item := { item_name := "milk", quantity := QVal.num 5, unit := "l",
                       grocy_product_id := some 1, confidence := Confidence.high }
             selected := true, create_if_missing := false }]).2.flatten =
        [Outcome.insufficientStock 5 2] ∧
      (commitReview ReviewAction.consume ⟨fun _ => false⟩
            ⟨fun p => if p = 1 then (2 : ℚ) else 0, 10, []⟩
            [{ item := { item_name := "milk", quantity := QVal.num 5, unit := "l",
                         grocy_product_id := some 1, confidence := Confidence.high }
               selected := true, create_if_missing := false }]).1.log = [] ∧
      (commitReview ReviewAction.consume ⟨fun _ => false⟩
            ⟨fun p => if p = 1 then (2 : ℚ) else 0, 10, []⟩
            [{ item := { item_name := "milk", quantity := QVal.num 5, unit := "l",
                         grocy_product_id := some 1, confidence := Confidence.high }
               selected := true, create_if_missing := false }]).1.stock 1 = 2 ∧
      (reportedConsumeResult ⟨fun _ => false⟩
          ⟨fun p => if p = 1 then (2 : ℚ) else 0, 10, []⟩
          [{ item := { item_name := "milk", quantity := QVal.num 5, unit := "l",
                       grocy_product_id := some 1, confidence := Confidence.high }
             selected := true, create_if_missing := false }]).insufficient_stock = [] ∧
      (reportedConsumeResult ⟨fun _ => false⟩
          ⟨fun p => if p = 1 then (2 : ℚ) else 0, 10, []⟩
          [{ item := { item_name := "milk", quantity := QVal.num 5, unit := "l",
                       grocy_product_id := some 1, confidence := Confidence.high }
             selected := true, create_if_missing := false }]).skipped =
        [Outcome.insufficientStock 5 2] := by
  refine ⟨by decide, by decide, by decide, rfl, by decide⟩

/-- C6 (amended): the spec-modelled executor step for
add_to_shopping_list records `already_in_stock(available)` and issues
no mutation when stock already covers the request; however the review
component's reported shopping result (src/unnamed/part_002 lines 85-90)
always reports `already_in_stock` as the empty list (non-success
outcomes are shown under `skipped`). -/
theorem c6_shopping_already_in_stock (env : ExecEnv) (idx : Nat) (st : ExecState)
    (it : TxItem) (pid : Nat) (raw : RawResult) (hpid : it.product_id = some pid)
    (hle : it.amount ≤ st.stock pid) :
    execItem ExecAction.addToShoppingList env idx st it =
        (st, [Outcome.alreadyInStock (st.stock pid)]) ∧
      (transformShoppingResult raw).already_in_stock = [] := by
  constructor
  · unfold execItem
    rw [hpid]
    unfold execResolved
    simp [hle]
  · rfl

theorem c6_shopping_already_in_stock_witness :
    execItem ExecAction.addToShoppingList ⟨fun _ => false⟩ 0
        ⟨fun p => if p = 2 then (10 : ℚ) else 0, 10, []⟩
        { product_id := some 2, product_name := "flour", amount := 3, unit := "g",
          location_id := none, quantity_unit_id := none, action := TxAct.purchase,
          create_if_missing := false } =
      (⟨fun p => if p = 2 then (10 : ℚ) else 0, 10, []⟩, [Outcome.alreadyInStock 10]) ∧
      (transformShoppingResult {}).already_in_stock = [] := by
  simpa using
    c6_shopping_already_in_stock ⟨fun _ => false⟩ 0
      ⟨fun p => if p = 2 then (10 : ℚ) else 0, 10, []⟩
      { product_id := some 2, product_name := "flour", amount := 3, unit := "g",
        location_id := none, quantity_unit_id := none, action := TxAct.purchase,
        create_if_missing := false }
      2 {} rfl (by norm_num)

/-- C6: the result reported to the user does not contain an
`already_in_stock` outcome for a matched shopping-list item whose stock
(10) already covers the request (3): the executor yields
`already_in_stock(10)` and issues no mutation (empty log), but the
reported shopping result pins `already_in_stock` to the empty list and
shows the item under `skipped`. -/
theorem c6_counterexample :
    (commitReview ReviewAction.shopping ⟨fun _ => false⟩
          ⟨fun p => if p = 2 then (10 : ℚ) else 0, 10, []⟩
          [{ item := { item_name := "flour", quantity := QVal.num 3, unit := "g",
                       grocy_product_id := some 2, confidence := Confidence.high }
             selected := true, create_if_missing := false }]).2.flatten =
        [Outcome.alreadyInStock 10] ∧
      (commitReview ReviewAction.shopping ⟨fun _ => false⟩
            ⟨fun p => if p = 2 then (10 : ℚ) else 0, 10, []⟩
            [{ item := { item_name := "flour", quantity := QVal.num 3, unit := "g",
                         grocy_product_id := some 2, confidence := Confidence.high }
               selected := true, create_if_missing := false }]).1.log = [] ∧
      (reportedShoppingResult ⟨fun _ => false⟩
          ⟨fun p => if p = 2 then (10 : ℚ) else 0, 10, []⟩
          [{ item := { item_name := "flour", quantity := QVal.num 3, unit := "g",
                       grocy_product_id := some 2, confidence := Confidence.high }
             selected := true, create_if_missing := false }]).already_in_stock = [] ∧
      (reportedShoppingResult ⟨fun _ => false⟩
          ⟨fun p => if p = 2 then (10 : ℚ) else 0, 10, []⟩
          [{ item := { item_name := "flour", quantity := QVal.num 3, unit := "g",
                       grocy_product_id := some 2, confidence := Confidence.high }
             selected := true, create_if_missing := false }]).skipped =
        [Outcome.alreadyInStock 10] := by
  refine ⟨by decide, by decide, rfl, by decide⟩

/-- C1: for a selected staged item without a matched product reference,
the commit (frontend translation of src/unnamed/part_002 lines 61-71
plus the spec-modelled executor) never drops the item: the result has
one outcome list per selected item, the item's list is non-empty, with
`create_if_missing = false` it is exactly `skipped("no product match")`,
and with `create_if_missing = true` a product is created first and the
newly assigned id is used for the item's own downstream processing. -/
theorem c1_unmatched_commit (ract : ReviewAction) (env : ExecEnv) (st : ExecState)
    (staged : List StagedItem) (j : Nat) (h : j < (selectedItems staged).length)
    (hnone : (selectedItems staged)[j].item.grocy_product_id = none) :
    (commitReview ract env st staged).2.length = (selectedItems staged).length ∧
      ∃ h2 : j < (commitReview ract env st staged).2.length,
        (commitReview ract env st staged).2[j] ≠ [] ∧
        ((selectedItems staged)[j].create_if_missing = false →
          (commitReview ract env st staged).2[j] = [Outcome.skipped noMatchReason]) ∧
        ((selectedItems staged)[j].create_if_missing = true →
          (commitReview ract env st staged).2[j] =
            Outcome.createdProduct
                (runState ract.toExec env 0 st
                  ((transactionItems ract staged).take j)).nextId ::
              (execResolved ract.toExec env j
                  (createFirst
                    (runState ract.toExec env 0 st ((transactionItems ract staged).take j))
                    (toTxItem ract (selectedItems staged)[j]))
                  (runState ract.toExec env 0 st
                    ((transactionItems ract staged).take j)).nextId
                  (toTxItem ract (selectedItems staged)[j])).2) := by
  have hlen2 : (transactionItems ract staged).length = (selectedItems staged).length := by
    simp [transactionItems]
  have hreslen : (commitReview ract env st staged).2.length =
      (selectedItems staged).length := by
    simpa [commitReview, runCommit, hlen2] using
      runCommitAux_length ract.toExec env (transactionItems ract staged) 0 st
  have htx : j < (transactionItems ract staged).length := by rw [hlen2]; exact h
  have h2 : j < (commitReview ract env st staged).2.length := by rw [hreslen]; exact h
  have hget : (transactionItems ract staged)[j] = toTxItem ract (selectedItems staged)[j] := by
    simp [transactionItems]
  have hmain :=
    runCommitAux_snd_get ract.toExec env (transactionItems ract staged) 0 st j htx h2
  simp only [List.get_eq_getElem, Nat.zero_add] at hmain
  rw [hget] at hmain
  have hexec : (commitReview ract env st staged).2[j] =
      (execItem ract.toExec env j
        (runState ract.toExec env 0 st ((transactionItems ract staged).take j))
        (toTxItem ract (selectedItems staged)[j])).2 := hmain
  have hpid : (toTxItem ract (selectedItems staged)[j]).product_id = none := hnone
  have hcimeq : (toTxItem ract (selectedItems staged)[j]).create_if_missing =
      (selectedItems staged)[j].create_if_missing := by
    simp [toTxItem, hnone]
  refine ⟨hreslen, h2, ?_, ?_, ?_⟩
  · rw [hexec]
    unfold execItem
    rw [hpid]
    cases hcim : (selectedItems staged)[j].create_if_missing <;>
      simp [hcimeq.trans hcim]
  · intro hcim
    rw [hexec]
    unfold execItem
    rw [hpid]
    simp [hcimeq.trans hcim]
  · intro hcim
    rw [hexec]
    unfold execItem
    rw [hpid]
    simp [hcimeq.trans hcim]

theorem c1_unmatched_commit_witness :
    (commitReview ReviewAction.save ⟨fun _ => false⟩ ⟨fun _ => 0, 5, []⟩
          [{ item := { item_name := "basil", quantity := QVal.num 2, unit := "bunch",
                       confidence := Confidence.new }
             selected := true, create_if_missing := false }]).2.length = 1 ∧
      (commitReview ReviewAction.save ⟨fun _ => false⟩ ⟨fun _ => 0, 5, []⟩
          [{ item := { item_name := "basil", quantity := QVal.num 2, unit := "bunch",
                       confidence := Confidence.new }
             selected := true, create_if_missing := false }]).2.get? 0 =
        some [Outcome.skipped noMatchReason] := by
  have hm :=
    c1_unmatched_commit ReviewAction.save ⟨fun _ => false⟩ ⟨fun _ => 0, 5, []⟩
      [{ item := { item_name := "basil", quantity := QVal.num 2, unit := "bunch",
                   confidence := Confidence.new }
         selected := true, create_if_missing := false }]
      0 (by decide) (by decide)
  obtain ⟨hlen, h2, hne, hfalse, htrue⟩ := hm
  refine ⟨by simpa using hlen, ?_⟩
  rw [List.get?_eq_getElem?, List.getElem?_eq_getElem h2, hfalse rfl]

/-- C2: the five bucket counts do not sum to the number of selected
staged items once a product is created: a single selected unmatched
item with `create_if_missing = true` yields both a `created_product`
and a `success` outcome, so the buckets sum to 2 while only 1 item was
selected. -/
theorem c2_counterexample :
    countKind Outcome.isSuccess
          (commitReview ReviewAction.shopping ⟨fun _ => false⟩ ⟨fun _ => 0, 10, []⟩
              [{ item := { item_name := "tomatoes", quantity := QVal.num 3, unit := "count",
                           confidence := Confidence.new }
                 selected := true, create_if_missing := true }]).2.flatten +
        countKind Outcome.isInsufficientStock
          (commitReview ReviewAction.shopping ⟨fun _ => false⟩ ⟨fun _ => 0, 10, []⟩
              [{ item := { item_name := "tomatoes", quantity := QVal.num 3, unit := "count",
                           confidence := Confidence.new }
                 selected := true, create_if_missing := true }]).2.flatten +
        countKind Outcome.isAlreadyInStock
          (commitReview ReviewAction.shopping ⟨fun _ => false⟩ ⟨fun _ => 0, 10, []⟩
              [{ item := { item_name := "tomatoes", quantity := QVal.num 3, unit := "count",
                           confidence := Confidence.new }
                 selected := true, create_if_missing := true }]).2.flatten +
        countKind Outcome.isCreatedProduct
          (commitReview ReviewAction.shopping ⟨fun _ => false⟩ ⟨fun _ => 0, 10, []⟩
              [{ item := { item_name := "tomatoes", quantity := QVal.num 3, unit := "count",
                           confidence := Confidence.new }
                 selected := true, create_if_missing := true }]).2.flatten +
        countKind Outcome.isSkipped
          (commitReview ReviewAction.shopping ⟨fun _ => false⟩ ⟨fun _ => 0, 10, []⟩
              [{ item := { item_name := "tomatoes", quantity := QVal.num 3, unit := "count",
                           confidence := Confidence.new }
                 selected := true, create_if_missing := true }]).2.flatten = 2 ∧
      (selectedItems
          [{ item := { item_name := "tomatoes", quantity := QVal.num 3, unit := "count",
                       confidence := Confidence.new }
             selected := true, create_if_missing := true }]).length = 1 := by
  refine ⟨by decide, by decide⟩

/-- C2 (amended): every selected staged item maps to exactly one final
outcome (and at most one additional `created_product` outcome);
unselected items produce no outcome (committing the filtered list is
the same commit); and the success + insufficient_stock +
already_in_stock + skipped counts sum exactly to the number of selected
items, while `created_product` entries come on top of that. -/
theorem c2_commit_buckets (ract : ReviewAction) (env : ExecEnv) (st : ExecState)
    (staged : List StagedItem) (j : Nat)
    (h : j < (commitReview ract env st staged).2.length) :
    (commitReview ract env st staged).2.length = (selectedItems staged).length ∧
      commitReview ract env st (selectedItems staged) = commitReview ract env st staged ∧
      countKind Outcome.isSuccess (commitReview ract env st staged).2.flatten +
          countKind Outcome.isInsufficientStock (commitReview ract env st staged).2.flatten +
          countKind Outcome.isAlreadyInStock (commitReview ract env st staged).2.flatten +
          countKind Outcome.isSkipped (commitReview ract env st staged).2.flatten =
        (selectedItems staged).length ∧
      countKind Outcome.isFinal (commitReview ract env st staged).2[j] = 1 ∧
      countKind Outcome.isCreatedProduct (commitReview ract env st staged).2[j] ≤ 1 := by
  have hlen2 : (transactionItems ract staged).length = (selectedItems staged).length := by
    simp [transactionItems]
  have hreslen : (commitReview ract env st staged).2.length =
      (selectedItems staged).length := by
    simpa [commitReview, runCommit, hlen2] using
      runCommitAux_length ract.toExec env (transactionItems ract staged) 0 st
  have hfilter : selectedItems (selectedItems staged) = selectedItems staged := by
    simp [selectedItems, List.filter_filter]
  have hfive := countKind_five_sum (commitReview ract env st staged).2.flatten
  have hflat2 : (commitReview ract env st staged).2.flatten.length =
      (selectedItems staged).length +
        countKind Outcome.isCreatedProduct (commitReview ract env st staged).2.flatten := by
    simpa [commitReview, runCommit, hlen2] using
      runCommitAux_flatten_length ract.toExec env (transactionItems ract staged) 0 st
  have htx : j < (transactionItems ract staged).length := by
    rw [hlen2, ← hreslen]; exact h
  have hmain :=
    runCommitAux_snd_get ract.toExec env (transactionItems ract staged) 0 st j htx h
  simp only [List.get_eq_getElem, Nat.zero_add] at hmain
  have hexec : (commitReview ract env st staged).2[j] =
      (execItem ract.toExec env j
        (runState ract.toExec env 0 st ((transactionItems ract staged).take j))
        (transactionItems ract staged)[j]).2 := hmain
  have hcounts :=
    execItem_counts ract.toExec env j
      (runState ract.toExec env 0 st ((transactionItems ract staged).take j))
      (transactionItems ract staged)[j]
  refine ⟨hreslen, ?_, by omega, ?_, ?_⟩
  · simp [commitReview, transactionItems, hfilter]
  · rw [hexec]; exact hcounts.1
  · rw [hexec]; exact hcounts.2.1

theorem c2_commit_buckets_witness :
    (commitReview ReviewAction.consume ⟨fun _ => false⟩
          ⟨fun p => if p = 1 then (9 : ℚ) else 0, 10, []⟩
          [{ item := { item_name := "milk", quantity := QVal.num 4, unit := "l",
                       grocy_product_id := some 1, confidence := Confidence.high }
             selected := true, create_if_missing := false },
           { item := { item_name := "egg", quantity := QVal.num 12, unit := "count",
                       grocy_product_id := some 2, confidence := Confidence.medium }
             selected := false, create_if_missing := false }]).2.length = 1 ∧
      countKind Outcome.isSuccess
            (commitReview ReviewAction.consume ⟨fun _ => false⟩
                ⟨fun p => if p = 1 then (9 : ℚ) else 0, 10, []⟩
                [{ item := { item_name := "milk", quantity := QVal.num 4, unit := "l",
                             grocy_product_id := some 1, confidence := Confidence.high }
                   selected := true, create_if_missing := false },
                 { item := { item_name := "egg", quantity := QVal.num 12, unit := "count",
                             grocy_product_id := some 2, confidence := Confidence.medium }
                   selected := false, create_if_missing := false }]).2.flatten +
          countKind Outcome.isInsufficientStock
            (commitReview ReviewAction.consume ⟨fun _ => false⟩
                ⟨fun p => if p = 1 then (9 : ℚ) else 0, 10, []⟩
                [{ item := { item_name := "milk", quantity := QVal.num 4, unit := "l",
                             grocy_product_id := some 1, confidence := Confidence.high }
                   selected := true, create_if_missing := false },
                 { item := { item_name := "egg", quantity := QVal.num 12, unit := "count",
                             grocy_product_id := some 2, confidence := Confidence.medium }
                   selected := false, create_if_missing := false }]).2.flatten +
          countKind Outcome.isAlreadyInStock
            (commitReview ReviewAction.consume ⟨fun _ => false⟩
                ⟨fun p => if p = 1 then (9 : ℚ) else 0, 10, []⟩
                [{ item := { item_name := "milk", quantity := QVal.num 4, unit := "l",
                             grocy_product_id := some 1, confidence := Confidence.high }
                   selected := true, create_if_missing := false },
                 { item := { item_name := "egg", quantity := QVal.num 12, unit := "count",
                             grocy_product_id := some 2, confidence := Confidence.medium }
                   selected := false, create_if_missing := false }]).2.flatten +
          countKind Outcome.isSkipped
            (commitReview ReviewAction.consume ⟨fun _ => false⟩
                ⟨fun p => if p = 1 then (9 : ℚ) else 0, 10, []⟩
                [{ item := { item_name := "milk", quantity := QVal.num 4, unit := "l",
                             grocy_product_id := some 1, confidence := Confidence.high }
                   selected := true, create_if_missing := false },
                 { item := { item_name := "egg", quantity := QVal.num 12, unit := "count",
                             grocy_product_id := some 2, confidence := Confidence.medium }
                   selected := false, create_if_missing := false }]).2.flatten = 1 := by
  have hm :=
    c2_commit_buckets ReviewAction.consume ⟨fun _ => false⟩
      ⟨fun p => if p = 1 then (9 : ℚ) else 0, 10, []⟩
      [{ item := { item_name := "milk", quantity := QVal.num 4, unit := "l",
                   grocy_product_id := some 1, confidence := Confidence.high }
         selected := true, create_if_missing := false },
       { item := { item_name := "egg", quantity := QVal.num 12, unit := "count",
                   grocy_product_id := some 2, confidence := Confidence.medium }
         selected := false, create_if_missing := false }]
      0 (by decide)
  exact ⟨by simpa using hm.1, by simpa using hm.2.2.1⟩


theorem invConf_iff (p : ParsedLineItem) :
    invConf p = true ↔ (p.confidence = Confidence.new → p.grocy_product_id = none) := by
  cases hc : p.confidence <;> cases hid : p.grocy_product_id <;>
    simp [invConf, hc, hid]

theorem mapWithIndex_all (p : α → Bool) (f : Nat → α → α)
    (hf : ∀ i a, p a = true → p (f i a) = true) :
    ∀ n (l : List α), l.all p = true → (mapWithIndex f n l).all p = true := by
  intro n l
  induction l generalizing n with
  | nil => intro h; exact h
  | cons a as ih =>
    intro hall
    simp only [List.all_cons, Bool.and_eq_true] at hall
    simp only [mapWithIndex, List.all_cons, Bool.and_eq_true]
    exact ⟨hf n a hall.1, ih (n + 1) hall.2⟩

theorem invConfS_setField (f : EditField) (v : String) (it : StagedItem) :
    invConfS (setField f v it) = invConfS it := by
  cases f <;> rfl

theorem handleCreateProduct_set (l : List StagedItem) (i : Nat) (nid : Nat) (nm : String)
    (hi : i < l.length)
    (hguard : ¬(l[i].item.item_name = "" ∨ l[i].item.location_id = none ∨
      l[i].item.quantity_unit_id = none)) :
    handleCreateProduct l i nid nm =
      l.set i
        { l[i] with
          item :=
            { l[i].item with
              grocy_product_id := some nid
              grocy_product_name := some nm
              confidence := Confidence.high }
          selected := true } := by
  have hsome : l.get? i = some l[i] := by
    rw [List.get?_eq_getElem?]
    exact List.getElem?_eq_getElem hi
  rw [handleCreateProduct, hsome]
  exact if_neg hguard

/-- C7: the confidence/match invariant (confidence = 'new' implies no
matched product id, `invConf`): the spec-modelled parse-side
normalization establishes it for every raw model output; staging and
all review edits (wrap, field edit, selection toggle, create-if-missing
toggle, the Create Product action) preserve it; the Create Product
action stores the new product id and simultaneously sets confidence to
'high' (out of 'new'); and the converse is not required: a matched item
(id 9) with confidence 'low' satisfies the invariant. -/
theorem c7_confidence_invariant (ract : ReviewAction) (ps : List ParsedLineItem)
    (l : List StagedItem) (i : Nat) (f : EditField) (v : String) (nid : Nat) (nm : String)
    (p : ParsedLineItem) (hp : invAllP ps = true) (hl : invAllS l = true)
    (hi : i < l.length) (hnm : l[i].item.item_name ≠ "")
    (hloc : l[i].item.location_id ≠ none) (hqu : l[i].item.quantity_unit_id ≠ none) :
    invConf (normalizeParsedItem p) = true ∧
      invAllS (initStagedItems ract ps) = true ∧
      invAllS (handleItemChange l i f v) = true ∧
      invAllS (toggleItemSelection l i) = true ∧
      invAllS (handleToggleCreateIfMissing l i) = true ∧
      invAllS (handleCreateProduct l i nid nm) = true ∧
      (handleCreateProduct l i nid nm).get? i =
        some
          { l[i] with
            item :=
              { l[i].item with
                grocy_product_id := some nid
                grocy_product_name := some nm
                confidence := Confidence.high }
            selected := true } ∧
      invConf { item_name := "butter", quantity := QVal.num 1, unit := "pack",
                grocy_product_id := some 9, confidence := Confidence.low } = true := by
  have hsome : l.get? i = some l[i] := by
    rw [List.get?_eq_getElem?]
    exact List.getElem?_eq_getElem hi
  have hguard : ¬(l[i].item.item_name = "" ∨ l[i].item.location_id = none ∨
      l[i].item.quantity_unit_id = none) := by
    push_neg
    exact ⟨hnm, hloc, hqu⟩
  have hallmem := List.all_eq_true.mp hl
  refine ⟨?_, ?_, ?_, ?_, ?_, ?_, ?_, rfl⟩
  · unfold normalizeParsedItem
    by_cases hid : p.grocy_product_id = none
    · simp [hid, invConf]
    · by_cases hc : p.confidence = Confidence.new <;> simp [hid, hc, invConf]
  · rw [invAllP] at hp
    simpa [invAllS, initStagedItems, List.all_map, invConfS, Function.comp] using hp
  · exact mapWithIndex_all invConfS _
      (fun k a ha => by
        by_cases hk : k = i
        · simpa [hk, invConfS_setField] using ha
        · simpa [hk] using ha)
      0 l hl
  · exact mapWithIndex_all invConfS _
      (fun k a ha => by by_cases hk : k = i <;> simpa [hk, invConfS, invConf] using ha)
      0 l hl
  · exact mapWithIndex_all invConfS _
      (fun k a ha => by by_cases hk : k = i <;> simpa [hk, invConfS, invConf] using ha)
      0 l hl
  · rw [handleCreateProduct_set l i nid nm hi hguard, invAllS, List.all_eq_true]
    intro y hy
    rcases List.mem_or_eq_of_mem_set hy with hmem | heq
    · exact hallmem y hmem
    · rw [heq]
      rfl
  · rw [handleCreateProduct_set l i nid nm hi hguard, List.get?_eq_getElem?]
    exact List.getElem?_set_eq_of_lt _ hi

theorem c7_confidence_invariant_witness :
    invConf
        (normalizeParsedItem
          { item_name := "mystery", quantity := QVal.num 1, unit := "x",
            grocy_product_id := none, confidence := Confidence.high }) = true ∧
      invAllS
          (handleCreateProduct
            [{ item := { item_name := "tomatoes", quantity := QVal.num 3, unit := "count",
                         location_id := some 1, quantity_unit_id := some 1,
                         confidence := Confidence.new }
               selected := true, create_if_missing := true }]
            0 7 "Tomatoes") = true ∧
      (handleCreateProduct
          [{ item := { item_name := "tomatoes", quantity := QVal.num 3, unit := "count",
                       location_id := some 1, quantity_unit_id := some 1,
                       confidence := Confidence.new }
             selected := true, create_if_missing := true }]
          0 7 "Tomatoes").get? 0 =
        some
          { item := { item_name := "tomatoes", quantity := QVal.num 3, unit := "count",
                      grocy_product_id := some 7, grocy_product_name := some "Tomatoes",
                      location_id := some 1, quantity_unit_id := some 1,
                      confidence := Confidence.high }
            selected := true, create_if_missing := true } := by
  have hm :=
    c7_confidence_invariant ReviewAction.consume []
      [{ item := { item_name := "tomatoes", quantity := QVal.num 3, unit := "count",
                   location_id := some 1, quantity_unit_id := some 1,
                   confidence := Confidence.new }
         selected := true, create_if_missing := true }]
      0 EditField.itemName "x" 7 "Tomatoes"
      { item_name := "mystery", quantity := QVal.num 1, unit := "x",
        grocy_product_id := none, confidence := Confidence.high }
      (by decide) (by decide) (by decide) (by decide) (by decide) (by decide)
  exact ⟨hm.1, hm.2.2.2.2.2.1, by simpa using hm.2.2.2.2.2.2.1⟩

/-- C8: a review session of
src/frontend/src/components/RecipeIngredientReview.jsx that opens the
modal and clicks Create Product — never executing the commit action —
already issues a mutation call against the inventory backend
(`createGrocyProduct`), so cancelling afterwards does not leave the
external system untouched. -/
theorem c8_counterexample :
    (legacyRun {}
          [LegacyEvent.openModal
              [{ item_name := "Tomatoes", quantity := QVal.num 3, unit := "count",
                 location_id := some 1, quantity_unit_id := some 1,
                 confidence := Confidence.new }]
              ReviewAction.consume,
            LegacyEvent.createProductClick 0 7 "Tomatoes",
            LegacyEvent.cancel]).1.committed = false ∧
      (legacyRun {}
            [LegacyEvent.openModal
                [{ item_name := "Tomatoes", quantity := QVal.num 3, unit := "count",
                   location_id := some 1, quantity_unit_id := some 1,
                   confidence := Confidence.new }]
                ReviewAction.consume,
              LegacyEvent.createProductClick 0 7 "Tomatoes",
              LegacyEvent.cancel]).2.map ExtCall.isMutation = [false, true] := by
  exact ⟨rfl, rfl⟩

/-- C8 (amended): cancelling itself issues no external call, and a
review session that never runs the commit action and never uses the
Create Product button issues only read-only external calls (the config
fetch of `loadGrocyData`); the Create Product button is the one
pre-commit path that mutates the external system. -/
theorem c8_precommit_readonly (es : List LegacyEvent) (s : LegacySession)
    (hes : es.all (fun e => !e.isExecute && !e.isCreateClick) = true) :
    ((legacyRun s es).2.all fun c => !c.isMutation) = true ∧
      (legacyStep s LegacyEvent.cancel).2 = [] := by
  refine ⟨?_, rfl⟩
  induction es generalizing s with
  | nil => rfl
  | cons e es ih =>
    simp only [List.all_cons, Bool.and_eq_true] at hes
    obtain ⟨he, hrest⟩ := hes
    cases e with
    | openModal parsed act =>
      simpa [legacyRun, legacyStep, ExtCall.isMutation] using
        ih { items := initStagedItemsLegacy parsed, act := act, committed := false } hrest
    | createProductClick i nid nm =>
      simp [LegacyEvent.isCreateClick] at he
    | toggleSelection i =>
      simpa [legacyRun, legacyStep] using
        ih { s with items := toggleItemSelection s.items i } hrest
    | executeAction =>
      simp [LegacyEvent.isExecute] at he
    | cancel =>
      simpa [legacyRun, legacyStep] using ih s hrest

theorem c8_precommit_readonly_witness :
    ((legacyRun {}
            [LegacyEvent.openModal
                [{ item_name := "Tomatoes", quantity := QVal.num 3, unit := "count",
                   location_id := some 1, quantity_unit_id := some 1,
                   confidence := Confidence.new }]
                ReviewAction.shopping,
              LegacyEvent.toggleSelection 0,
              LegacyEvent.cancel]).2.all fun c => !c.isMutation) = true ∧
      (legacyStep {} LegacyEvent.cancel).2 = [] :=
  c8_precommit_readonly
    [LegacyEvent.openModal
        [{ item_name := "Tomatoes", quantity := QVal.num 3, unit := "count",
           location_id := some 1, quantity_unit_id := some 1,
           confidence := Confidence.new }]
        ReviewAction.shopping,
      LegacyEvent.toggleSelection 0,
      LegacyEvent.cancel]
    {} (by decide)

theorem execItem_congr_env (act : ExecAction) (envA envB : ExecEnv) (idx : Nat)
    (st : ExecState) (it : TxItem) (h : envA.mutFails idx = envB.mutFails idx) :
    execItem act envA idx st it = execItem act envB idx st it := by
  unfold execItem execResolved
  rw [h]

theorem runCommitAux_congr_env (act : ExecAction) (envA envB : ExecEnv) :
    ∀ (ys : List TxItem) (i0 : Nat) (st : ExecState),
      (∀ j, j < ys.length → envA.mutFails (i0 + j) = envB.mutFails (i0 + j)) →
      runCommitAux act envA i0 st ys = runCommitAux act envB i0 st ys := by
  intro ys
  induction ys with
  | nil => intro i0 st h; rfl
  | cons y ys ih =>
    intro i0 st h
    have h0 : envA.mutFails i0 = envB.mutFails i0 := by
      simpa using h 0 (by simp)
    have hstep := execItem_congr_env act envA envB i0 st y h0
    have hrest := ih (i0 + 1) (execItem act envB i0 st y).1 fun j hj => by
      have := h (j + 1) (by simpa using Nat.succ_lt_succ hj)
      simpa [Nat.add_assoc, Nat.add_comm 1 j] using this
    simp only [runCommitAux, hstep, hrest]

theorem runCommitAux_append (act : ExecAction) (env : ExecEnv) :
    ∀ (xs ys : List TxItem) (i0 : Nat) (st : ExecState),
      runCommitAux act env i0 st (xs ++ ys) =
        ((runCommitAux act env (i0 + xs.length) (runCommitAux act env i0 st xs).1 ys).1,
          (runCommitAux act env i0 st xs).2 ++
            (runCommitAux act env (i0 + xs.length) (runCommitAux act env i0 st xs).1 ys).2) := by
  intro xs
  induction xs with
  | nil => intro ys i0 st; simp [runCommitAux]
  | cons x xs ih =>
    intro ys i0 st
    have harith : i0 + (xs.length + 1) = i0 + 1 + xs.length := by omega
    simp only [List.cons_append, runCommitAux, List.length_cons, harith, List.append_eq]
    rw [ih ys (i0 + 1) (execItem act env i0 st x).1]

theorem execResolved_congr (act : ExecAction) (envA envB : ExecEnv) (idx : Nat)
    (stA stB : ExecState) (pid : Nat) (it : TxItem)
    (hstock : stA.stock pid = stB.stock pid)
    (henv : envA.mutFails idx = envB.mutFails idx) :
    (execResolved act envA idx stA pid it).2 = (execResolved act envB idx stB pid it).2 ∧
      ∀ q, stA.stock q = stB.stock q →
        (execResolved act envA idx stA pid it).1.stock q =
          (execResolved act envB idx stB pid it).1.stock q := by
  cases act <;> unfold execResolved <;> dsimp only <;> simp only [hstock, henv] <;>
    repeat' split
  all_goals exact ⟨rfl, fun q hq => by simp [hq]⟩

theorem runCommitAux_congr_offtarget (act : ExecAction) (envA envB : ExecEnv) (p0 : Nat) :
    ∀ (ys : List TxItem) (i0 : Nat) (stA stB : ExecState),
      (∀ j (hj : j < ys.length),
        (ys[j].product_id).isSome = true ∧ ys[j].product_id.getD 0 ≠ p0) →
      (∀ q, q ≠ p0 → stA.stock q = stB.stock q) →
      (∀ j, j < ys.length → envA.mutFails (i0 + j) = envB.mutFails (i0 + j)) →
      (runCommitAux act envA i0 stA ys).2 = (runCommitAux act envB i0 stB ys).2 := by
  intro ys
  induction ys with
  | nil => intro i0 stA stB hy hst henv; rfl
  | cons y ys ih =>
    intro i0 stA stB hy hst henv
    obtain ⟨hsome, hne⟩ := hy 0 (by simp)
    simp only [List.getElem_cons_zero] at hsome hne
    obtain ⟨pid, hpid⟩ : ∃ pid, y.product_id = some pid := by
      cases hyp : y.product_id with
      | none => rw [hyp] at hsome; simp at hsome
      | some pid => exact ⟨pid, rfl⟩
    have hpidne : pid ≠ p0 := by
      rw [hpid] at hne
      simpa using hne
    have henv0 : envA.mutFails i0 = envB.mutFails i0 := by simpa using henv 0 (by simp)
    have hcongr :=
      execResolved_congr act envA envB i0 stA stB pid y (hst pid hpidne) henv0
    have hheadA : execItem act envA i0 stA y = execResolved act envA i0 stA pid y := by
      unfold execItem
      rw [hpid]
    have hheadB : execItem act envB i0 stB y = execResolved act envB i0 stB pid y := by
      unfold execItem
      rw [hpid]
    have hrest :=
      ih (i0 + 1) (execResolved act envA i0 stA pid y).1 (execResolved act envB i0 stB pid y).1
        (fun j hj => by simpa using hy (j + 1) (by simpa using Nat.succ_lt_succ hj))
        (fun q hq => hcongr.2 q (hst q hq))
        (fun j hj => by
          have := henv (j + 1) (by simpa using Nat.succ_lt_succ hj)
          simpa [Nat.add_assoc, Nat.add_comm 1 j] using this)
    simp only [runCommitAux, hheadA, hheadB, hcongr.1, hrest]

theorem execResolved_no_skip (act : ExecAction) (env : ExecEnv) (idx : Nat)
    (st : ExecState) (pid : Nat) (it : TxItem) (henv : env.mutFails idx = false) :
    countKind Outcome.isSkipped (execResolved act env idx st pid it).2 = 0 := by
  cases act <;> unfold execResolved <;> dsimp only <;> rw [henv] <;> repeat' split
  all_goals simp_all [countKind, List.filter_cons, Outcome.isSkipped]

theorem runCommitAux_no_skip (act : ExecAction) (env : ExecEnv) :
    ∀ (ys : List TxItem) (i0 : Nat) (st : ExecState),
      (∀ j (hj : j < ys.length), (ys[j].product_id).isSome = true) →
      (∀ j, j < ys.length → env.mutFails (i0 + j) = false) →
      countKind Outcome.isSkipped (runCommitAux act env i0 st ys).2.flatten = 0 := by
  intro ys
  induction ys with
  | nil => intro i0 st hy henv; rfl
  | cons y ys ih =>
    intro i0 st hy henv
    obtain ⟨pid, hpid⟩ : ∃ pid, y.product_id = some pid := by
      have hsome := hy 0 (by simp)
      simp only [List.getElem_cons_zero] at hsome
      cases hyp : y.product_id with
      | none => rw [hyp] at hsome; simp at hsome
      | some pid => exact ⟨pid, rfl⟩
    have hhead : execItem act env i0 st y = execResolved act env i0 st pid y := by
      unfold execItem
      rw [hpid]
    have henv0 : env.mutFails i0 = false := by simpa using henv 0 (by simp)
    have hns := execResolved_no_skip act env i0 st pid y henv0
    have hrest := ih (i0 + 1) (execResolved act env i0 st pid y).1
      (fun j hj => by simpa using hy (j + 1) (by simpa using Nat.succ_lt_succ hj))
      (fun j hj => by
        have := henv (j + 1) (by simpa using Nat.succ_lt_succ hj)
        simpa [Nat.add_assoc, Nat.add_comm 1 j] using this)
    simp only [runCommitAux, hhead, List.flatten_cons, countKind_append, hns, hrest]

theorem execItem_skip_of_fail (act : ExecAction) (envA envB : ExecEnv) (idx : Nat)
    (st : ExecState) (it : TxItem) (pid : Nat) (hpid : it.product_id = some pid)
    (hfail : envA.mutFails idx = true) (hok : envB.mutFails idx = false)
    (hsucc : (execItem act envB idx st it).2 = [Outcome.success pid it.amount]) :
    execItem act envA idx st it = (st, [Outcome.skipped mutationFailedReason]) ∧
      ∀ q, q ≠ pid → (execItem act envB idx st it).1.stock q = st.stock q := by
  have hA : execItem act envA idx st it = execResolved act envA idx st pid it := by
    unfold execItem
    rw [hpid]
  have hB : execItem act envB idx st it = execResolved act envB idx st pid it := by
    unfold execItem
    rw [hpid]
  rw [hB] at hsucc ⊢
  rw [hA]
  cases act
  case consume =>
    by_cases hc : st.stock pid < it.amount
    · unfold execResolved at hsucc
      rw [if_pos hc] at hsucc
      simp at hsucc
    · unfold execResolved
      rw [if_neg hc, if_neg hc, hfail, hok]
      refine ⟨by simp, fun q hq => by simp [hq]⟩
  case addToShoppingList =>
    by_cases hc : it.amount ≤ st.stock pid
    · unfold execResolved at hsucc
      rw [if_pos hc] at hsucc
      simp at hsucc
    · unfold execResolved
      rw [if_neg hc, if_neg hc, hfail, hok]
      refine ⟨by simp, fun q hq => by simp [hq]⟩
  case purchase =>
    unfold execResolved
    rw [hfail, hok]
    refine ⟨by simp, fun q hq => by simp [hq]⟩
  case saveAsRecipe =>
    unfold execResolved
    rw [hfail, hok]
    refine ⟨by simp, fun q hq => by simp [hq]⟩

/-- C4: in a commit through the spec-modelled executor in which all
items are matched, the items target pairwise distinct products (spec §5
reduces batches to this case), and exactly one item's mutation call
throws (oracle `env` fails exactly at position `k`, where the unfailed
run would have issued the call and succeeded), the batch is not
aborted: the result still has one outcome list per item, item `k`
reports exactly `skipped(reason)`, every other item receives the same
outcome it receives in the run without the failure, and `skipped`
appears exactly once overall. -/
theorem c4_partial_failure (ract : ReviewAction) (env : ExecEnv) (st : ExecState)
    (staged : List StagedItem) (k j : Nat)
    (hk : k < (transactionItems ract staged).length)
    (hj : j < (transactionItems ract staged).length) (hjk : j ≠ k)
    (hmatched : ∀ i (hi : i < (transactionItems ract staged).length),
      ((transactionItems ract staged)[i].product_id).isSome = true)
    (hdistinct : ∀ i (hi : i < (transactionItems ract staged).length), i ≠ k →
      (transactionItems ract staged)[i].product_id.getD 0 ≠
        (transactionItems ract staged)[k].product_id.getD 0)
    (henv : ∀ i, env.mutFails i = decide (i = k))
    (hsucc : (commitReview ract ⟨fun _ => false⟩ st staged).2[k]? =
      some [Outcome.success ((transactionItems ract staged)[k].product_id.getD 0)
          ((transactionItems ract staged)[k].amount)]) :
    (commitReview ract env st staged).2.length = (transactionItems ract staged).length ∧
      (commitReview ract env st staged).2[k]? =
        some [Outcome.skipped mutationFailedReason] ∧
      (commitReview ract env st staged).2[j]? =
        (commitReview ract ⟨fun _ => false⟩ st staged).2[j]? ∧
      countKind Outcome.isSkipped (commitReview ract env st staged).2.flatten = 1 := by
  set act := ract.toExec with hact
  set txs := transactionItems ract staged with htxs
  set nf : ExecEnv := (⟨fun _ => false⟩ : ExecEnv) with hnf
  have hktake : (txs.take k).length = k := by
    rw [List.length_take]
    omega
  have hsplit : txs.take k ++ txs[k] :: txs.drop (k + 1) = txs := by
    rw [← List.drop_eq_getElem_cons hk, List.take_append_drop]
  have hdec : ∀ e : ExecEnv,
      (runCommitAux act e 0 st txs).2 =
        (runCommitAux act e 0 st (txs.take k)).2 ++
          (execItem act e k (runCommitAux act e 0 st (txs.take k)).1 txs[k]).2 ::
            (runCommitAux act e (k + 1)
              (execItem act e k (runCommitAux act e 0 st (txs.take k)).1 txs[k]).1
              (txs.drop (k + 1))).2 := by
    intro e
    conv_lhs => rw [← hsplit]
    rw [runCommitAux_append act e (txs.take k) (txs[k] :: txs.drop (k + 1)) 0 st]
    simp only [runCommitAux, hktake, Nat.zero_add]
  have hpre : runCommitAux act env 0 st (txs.take k) = runCommitAux act nf 0 st (txs.take k) := by
    apply runCommitAux_congr_env
    intro j2 hj2
    have hlt : j2 < k := by rwa [hktake] at hj2
    rw [henv]
    simp only [Nat.zero_add]
    rw [decide_eq_false (by omega)]
  have hks := hmatched k hk
  obtain ⟨pidk, hpidk⟩ : ∃ p, txs[k].product_id = some p := by
    cases hp : txs[k].product_id with
    | none => rw [hp] at hks; simp at hks
    | some p => exact ⟨p, rfl⟩
  have hgetd : txs[k].product_id.getD 0 = pidk := by rw [hpidk]; rfl
  have hA0len : (runCommitAux act nf 0 st (txs.take k)).2.length = k := by
    rw [runCommitAux_length]
    exact hktake
  rw [hgetd] at hsucc
  have hsucc2 : (runCommitAux act nf 0 st txs).2[k]? =
      some [Outcome.success pidk txs[k].amount] := hsucc
  rw [hdec nf, List.getElem?_append_right (by omega)] at hsucc2
  simp only [hA0len, Nat.sub_self, List.getElem?_cons_zero] at hsucc2
  have hcenter0 : (execItem act nf k (runCommitAux act nf 0 st (txs.take k)).1 txs[k]).2 =
      [Outcome.success pidk txs[k].amount] := by
    exact Option.some.inj hsucc2
  have hskip :=
    execItem_skip_of_fail act env nf k (runCommitAux act nf 0 st (txs.take k)).1 txs[k] pidk
      hpidk (by rw [henv]; simp) rfl hcenter0
  have hresdec : (runCommitAux act env 0 st txs).2 =
      (runCommitAux act nf 0 st (txs.take k)).2 ++
        [Outcome.skipped mutationFailedReason] ::
          (runCommitAux act env (k + 1) (runCommitAux act nf 0 st (txs.take k)).1
            (txs.drop (k + 1))).2 := by
    rw [hdec env, hpre, hskip.1]
  have hdropfacts : ∀ j2 (hj2 : j2 < (txs.drop (k + 1)).length),
      ((txs.drop (k + 1))[j2].product_id).isSome = true ∧
        (txs.drop (k + 1))[j2].product_id.getD 0 ≠ pidk := by
    intro j2 hj2
    have hlen : j2 < txs.length - (k + 1) := by simpa [List.length_drop] using hj2
    have hidx : k + 1 + j2 < txs.length := by omega
    constructor
    · have := hmatched (k + 1 + j2) hidx
      simpa [List.getElem_drop] using this
    · have := hdistinct (k + 1 + j2) hidx (by omega)
      rw [hgetd] at this
      simpa [List.getElem_drop] using this
  have hsuffix : (runCommitAux act env (k + 1) (runCommitAux act nf 0 st (txs.take k)).1
        (txs.drop (k + 1))).2 =
      (runCommitAux act nf (k + 1)
        (execItem act nf k (runCommitAux act nf 0 st (txs.take k)).1 txs[k]).1
        (txs.drop (k + 1))).2 := by
    apply runCommitAux_congr_offtarget act env nf pidk (txs.drop (k + 1)) (k + 1)
    · exact hdropfacts
    · intro q hq
      exact (hskip.2 q hq).symm
    · intro j2 hj2
      rw [henv]
      rw [decide_eq_false (by omega)]
  have hres0dec : (runCommitAux act nf 0 st txs).2 =
      (runCommitAux act nf 0 st (txs.take k)).2 ++
        [Outcome.success pidk txs[k].amount] ::
          (runCommitAux act nf (k + 1)
            (execItem act nf k (runCommitAux act nf 0 st (txs.take k)).1 txs[k]).1
            (txs.drop (k + 1))).2 := by
    rw [hdec nf, hcenter0]
  refine ⟨runCommitAux_length act env txs 0 st, ?_, ?_, ?_⟩
  · show (runCommitAux act env 0 st txs).2[k]? = _
    rw [hresdec, List.getElem?_append_right (by omega)]
    simp [hA0len]
  · show (runCommitAux act env 0 st txs).2[j]? = (runCommitAux act nf 0 st txs).2[j]?
    rw [hresdec, hsuffix, hres0dec]
    rw [List.getElem?_append, List.getElem?_append]
    by_cases hcase : j < (runCommitAux act nf 0 st (txs.take k)).2.length
    · simp [hcase]
    · rw [if_neg hcase, if_neg hcase]
      have hsub : j - (runCommitAux act nf 0 st (txs.take k)).2.length = (j - k - 1) + 1 := by
        omega
      rw [hsub, List.getElem?_cons_succ, List.getElem?_cons_succ]
  · show countKind Outcome.isSkipped (runCommitAux act env 0 st txs).2.flatten = 1
    rw [hresdec, List.flatten_append, List.flatten_cons, countKind_append, countKind_append]
    have hpref0 : countKind Outcome.isSkipped
        (runCommitAux act nf 0 st (txs.take k)).2.flatten = 0 := by
      apply runCommitAux_no_skip
      · intro j2 hj2
        have hlt : j2 < k := by rwa [hktake] at hj2
        have := hmatched j2 (by omega)
        simpa [List.getElem_take] using this
      · intro j2 hj2
        rfl
    have hsuf0 : countKind Outcome.isSkipped
        (runCommitAux act env (k + 1) (runCommitAux act nf 0 st (txs.take k)).1
          (txs.drop (k + 1))).2.flatten = 0 := by
      apply runCommitAux_no_skip
      · intro j2 hj2
        exact (hdropfacts j2 hj2).1
      · intro j2 hj2
        rw [henv]
        rw [decide_eq_false (by omega)]
    rw [hpref0, hsuf0]
    rfl

theorem c4_partial_failure_witness :
    (commitReview ReviewAction.consume ⟨fun i => decide (i = 0)⟩
          ⟨fun p => if p = 1 then (9 : ℚ) else if p = 2 then 20 else 0, 10, []⟩
          [{ item := { item_name := "milk", quantity := QVal.num 4, unit := "l",
                       grocy_product_id := some 1, confidence := Confidence.high }
             selected := true, create_if_missing := false },
           { item := { item_name := "egg", quantity := QVal.num 12, unit := "count",
                       grocy_product_id := some 2, confidence := Confidence.medium }
             selected := true, create_if_missing := false }]).2[0]? =
        some [Outcome.skipped mutationFailedReason] ∧
      countKind Outcome.isSkipped
          (commitReview ReviewAction.consume ⟨fun i => decide (i = 0)⟩
              ⟨fun p => if p = 1 then (9 : ℚ) else if p = 2 then 20 else 0, 10, []⟩
              [{ item := { item_name := "milk", quantity := QVal.num 4, unit := "l",
                           grocy_product_id := some 1, confidence := Confidence.high }
                 selected := true, create_if_missing := false },
               { item := { item_name := "egg", quantity := QVal.num 12, unit := "count",
                           grocy_product_id := some 2, confidence := Confidence.medium }
                 selected := true, create_if_missing := false }]).2.flatten = 1 := by
  have hm :=
    c4_partial_failure ReviewAction.consume ⟨fun i => decide (i = 0)⟩
      ⟨fun p => if p = 1 then (9 : ℚ) else if p = 2 then 20 else 0, 10, []⟩
      [{ item := { item_name := "milk", quantity := QVal.num 4, unit := "l",
                   grocy_product_id := some 1, confidence := Confidence.high }
         selected := true, create_if_missing := false },
       { item := { item_name := "egg", quantity := QVal.num 12, unit := "count",
                   grocy_product_id := some 2, confidence := Confidence.medium }
         selected := true, create_if_missing := false }]
      0 1 (by decide) (by decide) (by decide)
      (by
        intro i hi
        have h2 : i < 2 := hi
        interval_cases i <;> rfl)
      (by
        intro i hi hik
        have h2 : i < 2 := hi
        interval_cases i
        · exact absurd rfl hik
        · show (2 : Nat) ≠ (1 : Nat)
          decide)
      (fun i => rfl)
      (by decide)
  exact ⟨hm.2.1, hm.2.2.2⟩

end Elzar
